import Mathlib

/-!
Verification of the pAPRika restraint-schedule core.

This file gives a shallow embedding of the schedule-generation layer of the
pAPRika repository: the per-phase (attach / pull / release) schedule
generator of `DAT_restraint.initialize`, the window-list builder
`create_window_list`, the parameter extractor `get_restraint_values`, the
bias-potential classifier `get_bias_potential_type`, the guest
degree-of-freedom classifier `extract_guest_restraints`, and the
atom-index resolver `index_from_mask` (src/paprika/utils.py).

The repository source tree here contains only `src/paprika/utils.py`,
`src/paprika/tleap.py` and the test suite
`src/paprika/tests/test_restraints.py`; the implementation of
`paprika.restraints.restraints` and `paprika.restraints.utils` is not
present.  Those components are therefore modelled from the specification
(spec.md sections 3, 4.1-4.6), with the behaviour cross-checked against
the expected values pinned by the in-tree test suite.  Real numbers are
modelled by `ℚ`: every schedule value produced by the code is a finite
decimal, and the tests compare with `np.allclose`, so exact rational
arithmetic reproduces the documented values (including the documented
`np.arange` overshoot defect, which is a consequence of the accumulation
algorithm itself and is visible already in exact arithmetic).
-/

/-- The three APR phases. -/
inductive Phase
  | attach
  | pull
  | release
deriving DecidableEq

/-- Modelled from the spec: the raw per-phase configuration dictionary of a
`DAT_restraint` (spec section 3, "Per-phase raw configuration").  Every key
that any of the five specification methods of section 4.1 may consult is an
optional field; `none` is Python's `None` (key unset). -/
structure PhaseConfig where
  target : Option ℚ := none
  target_initial : Option ℚ := none
  target_final : Option ℚ := none
  target_increment : Option ℚ := none
  target_list : Option (List ℚ) := none
  num_windows : Option ℕ := none
  fc : Option ℚ := none
  fc_initial : Option ℚ := none
  fc_final : Option ℚ := none
  fc_increment : Option ℚ := none
  fraction_increment : Option ℚ := none
  fraction_list : Option (List ℚ) := none
  fc_list : Option (List ℚ) := none
deriving DecidableEq

/-- Modelled from the spec: `custom_restraint_values` (spec section 3), a
mapping from the six restraint-parameter names to optional fixed overrides. -/
structure CustomValues where
  r1 : Option ℚ := none
  r2 : Option ℚ := none
  r3 : Option ℚ := none
  r4 : Option ℚ := none
  rk2 : Option ℚ := none
  rk3 : Option ℚ := none
deriving DecidableEq

/-- Modelled from the spec: the configurable state of a `DAT_restraint`
before initialization (spec section 3).  Masks and the topology are omitted:
atom-index resolution is delegated to the external AtomSelector collaborator
and is modelled separately (`index_from_mask`); the schedule layer never
reads them. -/
structure DAT_restraint where
  amber_index : Bool := false
  continuous_apr : Bool := false
  auto_apr : Bool := false
  attach : PhaseConfig := {}
  pull : PhaseConfig := {}
  release : PhaseConfig := {}
  custom_restraint_values : CustomValues := {}
deriving DecidableEq

/-- Modelled from the spec: one phase's computed schedules,
`phase[name] = ⟨force_constants, targets⟩`, where `none` marks an absent
(unconfigured) phase (spec section 3). -/
structure PhaseData where
  force_constants : Option (List ℚ) := none
  targets : Option (List ℚ) := none
deriving DecidableEq

/-- `np.linspace a b n`: `n` evenly spaced rationals from `a` to `b`
inclusive.  For `n = 1` the rational convention `x / 0 = 0` makes the sole
element `a`, matching numpy. -/
def linspace (a b : ℚ) (n : ℕ) : List ℚ :=
  (List.range n).map (fun i : ℕ => a + (b - a) * (i : ℚ) / ((n : ℚ) - 1))

/-- `np.arange start stop step` for positive `step`: the values
`start, start + step, start + 2*step, …` while they stay strictly below
`stop`.  This is the literal accumulation algorithm of spec section 4.1
methods 2 and 4; used with `stop = final + step` it carries the documented
overshoot defect for non-exact divisors. -/
def arange (start stop step : ℚ) : List ℚ :=
  (List.range (⌈(stop - start) / step⌉).toNat).map (fun k : ℕ => start + (k : ℚ) * step)

/-- Modelled from the spec: the force-constant side of the schedule
generator for the attach and release phases (spec section 4.1).  The five
mutually exclusive specification methods are tried in the spec's fixed
priority order, first match wins, with the initial value defaulting to `0`
when unspecified:
1. `num_windows` + `fc_final`: `num_windows` evenly spaced values over
   `[fc_initial, fc_final]`;
2. `fc_increment` + `fc_final`: accumulation from `fc_initial` in steps of
   `fc_increment` up to (and, by the documented defect, possibly past)
   `fc_final`;
3. `fraction_list` + `fc_final`: each fraction times `fc_final`;
4. `fraction_increment` + `fc_final`: fractions accumulated from 0 the same
   way as method 2 against the value 1, each scaled by `fc_final`;
5. `fc_list`: used verbatim.
`none` when no method's keys are completely present. -/
def fcSchedule (cfg : PhaseConfig) : Option (List ℚ) :=
  match cfg.num_windows, cfg.fc_final with
  | some n, some ff => some (linspace (cfg.fc_initial.getD 0) ff n)
  | _, _ =>
    match cfg.fc_increment, cfg.fc_final with
    | some inc, some ff => some (arange (cfg.fc_initial.getD 0) (ff + inc) inc)
    | _, _ =>
      match cfg.fraction_list, cfg.fc_final with
      | some fl, some ff => some (fl.map (fun f => f * ff))
      | _, _ =>
        match cfg.fraction_increment, cfg.fc_final with
        | some finc, some ff => some ((arange 0 (1 + finc) finc).map (fun f => f * ff))
        | _, _ => cfg.fc_list

/-- Modelled from the spec: the target side of the schedule generator for
the pull phase (spec section 4.1, "Pull phase is symmetric but roles swap"):
the same five method shapes against `target_initial` / `target_final` /
`target_increment` / `target_list` instead of the `fc_*` keys. -/
def pullTargetSchedule (cfg : PhaseConfig) : Option (List ℚ) :=
  match cfg.num_windows, cfg.target_final with
  | some n, some tf => some (linspace (cfg.target_initial.getD 0) tf n)
  | _, _ =>
    match cfg.target_increment, cfg.target_final with
    | some inc, some tf => some (arange (cfg.target_initial.getD 0) (tf + inc) inc)
    | _, _ =>
      match cfg.fraction_list, cfg.target_final with
      | some fl, some tf => some (fl.map (fun f => f * tf))
      | _, _ =>
        match cfg.fraction_increment, cfg.target_final with
        | some finc, some tf => some ((arange 0 (1 + finc) finc).map (fun f => f * tf))
        | _, _ => cfg.target_list

/-- Modelled from the spec: schedule of an attach or release phase
(spec section 4.1): the force constants come from `fcSchedule`; the targets
are the phase's single `target` value repeated once per window.  Both
sequences are `none` when no method is configured. -/
def attachSchedule (cfg : PhaseConfig) : PhaseData :=
  match fcSchedule cfg with
  | some fcs => ⟨some fcs, some (List.replicate fcs.length (cfg.target.getD 0))⟩
  | none => ⟨none, none⟩

/-- Modelled from the spec: schedule of the pull phase (spec section 4.1):
the targets come from `pullTargetSchedule`; the force constants are the
constant `fc` value repeated once per window. -/
def pullSchedule (cfg : PhaseConfig) : PhaseData :=
  match pullTargetSchedule cfg with
  | some tgts => ⟨some (List.replicate tgts.length (cfg.fc.getD 0)), some tgts⟩
  | none => ⟨none, none⟩

/-- Modelled from the spec: schedule of the release phase.  With
`auto_apr = true`, a release phase that is not itself completely configured
by one of the five methods is auto-derived to close the thermodynamic cycle
(spec section 3): its force constants (window count and ramp) default to the
attach phase's and its fixed target to the pull phase's final target.
Otherwise the release phase is scheduled exactly like an attach phase. -/
def releaseSchedule (auto : Bool) (a p : PhaseData) (cfg : PhaseConfig) : PhaseData :=
  if auto && (fcSchedule cfg).isNone then
    match a.force_constants, p.targets with
    | some afcs, some ptgts => ⟨some afcs, some (List.replicate afcs.length (ptgts.getLastD 0))⟩
    | _, _ => ⟨none, none⟩
  else attachSchedule cfg

/-- A restraint after `DAT_restraint.initialize`: the computed per-phase
schedules together with the flags and overrides that the downstream readers
(WindowListBuilder, ParameterExtractor) consult. -/
structure InitializedRestraint where
  continuous_apr : Bool
  custom_restraint_values : CustomValues
  attachData : PhaseData
  pullData : PhaseData
  releaseData : PhaseData
deriving DecidableEq

/-- Modelled from the spec: the schedule-computing part of
`DAT_restraint.initialize` (spec sections 4.1 and 4.2) as a pure function:
each configured phase is scheduled by the generator, and the release phase
additionally honours `auto_apr`. -/
def initRestraint (r : DAT_restraint) : InitializedRestraint :=
  let a := attachSchedule r.attach
  let p := pullSchedule r.pull
  ⟨r.continuous_apr, r.custom_restraint_values, a, p,
    releaseSchedule r.auto_apr a p r.release⟩

/-- The phase-indexed view of an initialized restraint's schedules. -/
def InitializedRestraint.phaseData (r : InitializedRestraint) : Phase → PhaseData
  | .attach => r.attachData
  | .pull => r.pullData
  | .release => r.releaseData

/-- Python's `str(n).zfill(3)`: the decimal digits of `n` left-padded with
zeros to width 3 (wider numbers are kept unchanged). -/
def zfill3 (n : ℕ) : String :=
  if n < 1000 then
    String.mk [Char.ofNat (48 + n / 100), Char.ofNat (48 + n / 10 % 10), Char.ofNat (48 + n % 10)]
  else
    Nat.repr n

/-- The phase letter of a window identifier. -/
def phaseLetter : Phase → String
  | .attach => "a"
  | .pull => "p"
  | .release => "r"

/-- Modelled from the spec: the window identifiers contributed by one phase
with `n` windows (spec section 4.3).  When `continuous_apr` is true the last
attach window and the first release window are omitted; the pull phase keeps
all of its windows. -/
def windowLabels (c : Bool) (p : Phase) (n : ℕ) : List String :=
  if c && (p == Phase.attach) then
    (List.range (n - 1)).map (fun i => "a" ++ zfill3 i)
  else if c && (p == Phase.release) then
    (List.range' 1 (n - 1)).map (fun i => "r" ++ zfill3 i)
  else
    (List.range n).map (fun i => phaseLetter p ++ zfill3 i)

/-- The window counts that the restraints of a collection report for one
phase; a restraint whose phase is absent (`targets = none`) contributes
nothing. -/
def windowCounts (rs : List InitializedRestraint) (p : Phase) : List ℕ :=
  rs.filterMap (fun r => ((r.phaseData p).targets).map List.length)

/-- Modelled from the spec: the per-phase step of WindowListBuilder
(spec section 4.3).  A phase configured by no restraint contributes no
windows; a phase whose configuring restraints disagree on the window count
is a ConsistencyError. -/
def phaseWindows (c : Bool) (rs : List InitializedRestraint) (p : Phase) :
    Except String (List String) :=
  match windowCounts rs p with
  | [] => Except.ok []
  | n :: rest =>
    if rest.all (fun m => m == n) then Except.ok (windowLabels c p n)
    else Except.error "Restraints have unequal number of windows"

/-- The attach-pull-release concatenation step of WindowListBuilder once the
shared `continuous_apr` flag is known: the first phase error encountered is
propagated. -/
def combineWindows (c : Bool) (rs : List InitializedRestraint) : Except String (List String) :=
  match phaseWindows c rs .attach, phaseWindows c rs .pull, phaseWindows c rs .release with
  | Except.ok a, Except.ok p, Except.ok r => Except.ok (a ++ p ++ r)
  | Except.error e, _, _ => Except.error e
  | _, Except.error e, _ => Except.error e
  | _, _, Except.error e => Except.error e

/-- Modelled from the spec: `create_window_list` (spec section 4.3).  All
restraints must agree on `continuous_apr` (else a ConsistencyError); the
output is the attach windows, then the pull windows, then the release
windows, with the continuous-APR boundary merging applied. -/
def create_window_list (rs : List InitializedRestraint) : Except String (List String) :=
  if rs.all (fun r => r.continuous_apr) then combineWindows true rs
  else if rs.all (fun r => !r.continuous_apr) then combineWindows false rs
  else Except.error "All restraints must have the same setting for continuous_apr"

/-- The six parameters handed to the simulation engine for one window. -/
structure RestraintValues where
  r1 : ℚ
  r2 : ℚ
  r3 : ℚ
  r4 : ℚ
  rk2 : ℚ
  rk3 : ℚ
deriving DecidableEq

/-- Modelled from the spec: `get_restraint_values` (spec section 4.4).
Defaults are `r1 = 0`, `r4 = 999`, `r2 = r3 =` the phase's target at the
window index, `rk2 = rk3 =` the phase's force constant there; any key
present in `custom_restraint_values` overrides its default unconditionally,
identically for every phase and window. -/
def get_restraint_values (r : InitializedRestraint) (p : Phase) (i : ℕ) : RestraintValues :=
  let tgt := (((r.phaseData p).targets).getD []).getD i 0
  let fc := (((r.phaseData p).force_constants).getD []).getD i 0
  let c := r.custom_restraint_values
  ⟨c.r1.getD 0, c.r2.getD tgt, c.r3.getD tgt, c.r4.getD 999, c.rk2.getD fc, c.rk3.getD fc⟩

/-- Modelled from the spec: the decision chain of the potential classifier
(spec section 4.5), first matching rule wins.  The final branch corresponds
to the source's `r2 > r3` case: when no earlier rule matched, trichotomy
leaves exactly `r2 > r3`. -/
def biasTag (v : RestraintValues) : String :=
  if v.rk2 = 0 ∧ v.rk3 ≠ 0 then "upper_walls"
  else if v.rk3 = 0 ∧ v.rk2 ≠ 0 then "lower_walls"
  else if v.r2 = v.r3 then "restraint"
  else if v.r2 < v.r3 then "upper_walls"
  else "lower_walls"

/-- Modelled from the spec: `get_bias_potential_type` (spec section 4.5):
extract the six parameters of the window, then classify them. -/
def get_bias_potential_type (r : InitializedRestraint) (p : Phase) (i : ℕ) : String :=
  biasTag (get_restraint_values r p i)

/-- The classification of one mask of a guest restraint: either it
references atoms outside the guest residue (a dummy / host anchor atom) or
inside it.  The structure lookup itself is performed by the external
AtomSelector collaborator, so a mask is abstracted to this classification. -/
inductive MaskAtom
  | anchor
  | guest
deriving DecidableEq

/-- The six canonical guest degrees of freedom. -/
inductive GuestDOF
  | r
  | theta
  | phi
  | alpha
  | beta
  | gamma
deriving DecidableEq

/-- Modelled from the spec: the shape classification of one restraint by
GuestDOFClassifier (spec section 4.6): the total mask count (2 → distance,
3 → angle, 4 → torsion) and how many anchor atoms precede the guest atoms
select the degree of freedom. -/
def classifyGuestRestraint : List MaskAtom → Option GuestDOF
  | [.anchor, .guest] => some .r
  | [.anchor, .guest, .guest] => some .theta
  | [.anchor, .anchor, .guest] => some .beta
  | [.anchor, .anchor, .anchor, .guest] => some .phi
  | [.anchor, .anchor, .guest, .guest] => some .alpha
  | [.anchor, .guest, .guest, .guest] => some .gamma
  | _ => none

/-- The output slot of each degree of freedom.  The slot ordering
`[distance, theta, phi, alpha, beta, gamma]` is the one pinned by the
in-tree test `test_extract_guest_restraints`
(src/paprika/tests/test_restraints.py lines 879-884: with distance, theta
and beta restraints present, slots 0, 1 and 4 are filled and slot 2 is
empty). -/
def slotFor : GuestDOF → ℕ
  | .r => 0
  | .theta => 1
  | .phi => 2
  | .alpha => 3
  | .beta => 4
  | .gamma => 5

/-- Modelled from the spec: `extract_guest_restraints` (spec section 4.6),
with the slot ordering pinned by the in-tree test (see `slotFor`).  Each
restraint in the ordered collection that matches a pattern is placed in its
fixed slot (later matches overwrite earlier ones); a slot no restraint
matches stays `none`. -/
def extract_guest_restraints (rs : List (List MaskAtom)) : List (Option (List MaskAtom)) :=
  rs.foldl
    (fun slots m =>
      match classifyGuestRestraint m with
      | some d => slots.set (slotFor d) (some m)
      | none => slots)
    (List.replicate 6 none)

/-- The atom indices a mask selects in a structure.  The structure is
modelled as the list of its atoms' selection keys and a mask as one key;
`pmd.amber.mask.AmberMask(structure, mask).Selected()` (the external
collaborator called by `index_from_mask`) yields the indices of the
matching atoms, in order. -/
def selectedIndices (atoms : List String) (mask : String) : List ℕ :=
  (List.range atoms.length).filter (fun i => atoms.getD i "" == mask)

/-- `index_from_mask` from src/paprika/utils.py lines 36-53: resolve a mask
to atom indices, adding 1 when `amber_index` is set.  The source returns
the selected list unconditionally — there is no empty-selection check; its
only `raise` is for an unsupported structure argument type, which the typed
embedding excludes.  The `Except` result type gives the LookupError channel
claimed by the spec a place to appear; the code never uses it. -/
def index_from_mask (atoms : List String) (mask : String) (amber_index : Bool) :
    Except String (List ℕ) :=
  let offset : ℕ := if amber_index then 1 else 0
  Except.ok ((selectedIndices atoms mask).map (fun i => i + offset))

/-- The specification method configured for a phase of a restraint, if any:
the raw schedule that section 4.1's method dispatch produces for that
phase's side that varies (force constants for attach and release, targets
for pull), before `auto_apr` post-processing. -/
def rawSchedule (r : DAT_restraint) : Phase → Option (List ℚ)
  | .attach => fcSchedule r.attach
  | .pull => pullTargetSchedule r.pull
  | .release => fcSchedule r.release

/-- Concrete restraint for the overshoot scenario of the in-tree test
(release phase of restraint 6 of `test_DAT_restraint`):
`fraction_increment = 0.33`, `fc_final = 5.0`, `target = 1.0`. -/
def overshootExample : DAT_restraint :=
  { release := { target := some 1, fraction_increment := some 0.33, fc_final := some 5 } }

/-- Concrete initialized restraint with `continuous_apr = true` and window
counts 3 / 4 / 4, the continuous-APR merging example of the spec
(section 8). -/
def continuousExample : DAT_restraint :=
  { continuous_apr := true
    attach := { target := some 0, fc_list := some [0, 1, 2] }
    pull := { fc := some 2, target_list := some [0, 1, 2, 3] }
    release := { target := some 3, fc_list := some [0, 1, 2, 3] } }

/-- Concrete restraint pair with conflicting `continuous_apr` flags
(restraints 7 and 8 of `test_DAT_restraint`). -/
def flagTrueExample : InitializedRestraint :=
  ⟨true, {}, ⟨some [0, 1], some [0, 0]⟩, ⟨none, none⟩, ⟨none, none⟩⟩

/-- Partner of `flagTrueExample` with `continuous_apr = false`. -/
def flagFalseExample : InitializedRestraint :=
  ⟨false, {}, ⟨some [0, 1], some [0, 0]⟩, ⟨none, none⟩, ⟨none, none⟩⟩

/-- Concrete method-1 restraint (restraint 1 of `test_DAT_restraint`):
attach `num_windows = 4`, `fc_initial = 0`, `fc_final = 3`, `target = 3`. -/
def method1Example : DAT_restraint :=
  { attach := { target := some 3, num_windows := some 4, fc_initial := some 0, fc_final := some 3 } }

/-- Concrete `auto_apr` restraint: attach and pull configured by method 1,
release holding only `fc_final` (the shape of restraint 3 of
`test_DAT_restraint`, with small window counts). -/
def autoAprExample : DAT_restraint :=
  { auto_apr := true
    attach := { target := some 0, num_windows := some 2, fc_initial := some 0, fc_final := some 4 }
    pull := { fc := some 4, num_windows := some 2, target_initial := some 1, target_final := some 7 }
    release := { fc_final := some 4 } }

/-- Concrete `auto_apr` restraint whose release configuration is entirely
empty; attach and pull are configured by method 1. -/
def autoAprEmptyRelease : DAT_restraint :=
  { auto_apr := true
    attach := { target := some 0, num_windows := some 2, fc_initial := some 0, fc_final := some 4 }
    pull := { fc := some 4, num_windows := some 2, target_initial := some 1, target_final := some 7 } }

/-- Concrete initialized restraint with custom overrides, the upper-wall
scenario of `test_get_restraint_values` (attach target 3.5, force constant
1, overrides `r2 = 0`, `r3 = 3.5`, `rk2 = rk3 = 1`). -/
def wallExample : InitializedRestraint :=
  ⟨false, { r2 := some 0, r3 := some 3.5, rk2 := some 1, rk3 := some 1 },
    ⟨some [1, 1], some [3.5, 3.5]⟩, ⟨none, none⟩, ⟨none, none⟩⟩

/-- Concrete initialized restraint with `rk2` overridden to zero, the
second upper-wall scenario of `test_get_bias_potential_type`. -/
def upperWallExample : InitializedRestraint :=
  ⟨false, { r2 := some 3.5, r3 := some 3.5, rk2 := some 0, rk3 := some 1 },
    ⟨some [1, 1], some [3.5, 3.5]⟩, ⟨none, none⟩, ⟨none, none⟩⟩

/-- The guest-restraint collection of `test_extract_guest_restraints` after
its first three additions, abstracted to anchor / guest mask patterns: one
distance restraint, one theta-shaped and one beta-shaped angle restraint. -/
def guestTriple : List (List MaskAtom) :=
  [[.anchor, .guest], [.anchor, .guest, .guest], [.anchor, .anchor, .guest]]

-- ====================================================================== --
-- Helper lemmas                                                          --
-- ====================================================================== --

lemma arange_eq_of_bounds (start stop step : ℚ) (n : ℕ)
    (h1 : (n : ℚ) - 1 < (stop - start) / step) (h2 : (stop - start) / step ≤ (n : ℚ)) :
    arange start stop step = (List.range n).map (fun k : ℕ => start + (k : ℚ) * step) := by
  have hc : ⌈(stop - start) / step⌉ = (n : ℤ) := by
    rw [Int.ceil_eq_iff]
    constructor
    · push_cast
      exact h1
    · push_cast
      exact h2
  rw [arange, hc, Int.toNat_natCast]

lemma initRestraint_attachData (r : DAT_restraint) :
    (initRestraint r).attachData = attachSchedule r.attach := rfl

lemma initRestraint_pullData (r : DAT_restraint) :
    (initRestraint r).pullData = pullSchedule r.pull := rfl

lemma initRestraint_releaseData (r : DAT_restraint) :
    (initRestraint r).releaseData =
      releaseSchedule r.auto_apr (attachSchedule r.attach) (pullSchedule r.pull) r.release := rfl

lemma attachSchedule_of_some (cfg : PhaseConfig) (l : List ℚ) (h : fcSchedule cfg = some l) :
    attachSchedule cfg = ⟨some l, some (List.replicate l.length (cfg.target.getD 0))⟩ := by
  rw [attachSchedule, h]

lemma attachSchedule_of_none (cfg : PhaseConfig) (h : fcSchedule cfg = none) :
    attachSchedule cfg = ⟨none, none⟩ := by
  rw [attachSchedule, h]

lemma pullSchedule_of_some (cfg : PhaseConfig) (l : List ℚ) (h : pullTargetSchedule cfg = some l) :
    pullSchedule cfg = ⟨some (List.replicate l.length (cfg.fc.getD 0)), some l⟩ := by
  rw [pullSchedule, h]

lemma pullSchedule_of_none (cfg : PhaseConfig) (h : pullTargetSchedule cfg = none) :
    pullSchedule cfg = ⟨none, none⟩ := by
  rw [pullSchedule, h]

lemma releaseSchedule_of_configured (auto : Bool) (a p : PhaseData) (cfg : PhaseConfig)
    (l : List ℚ) (h : fcSchedule cfg = some l) :
    releaseSchedule auto a p cfg = attachSchedule cfg := by
  rw [releaseSchedule, h]
  simp

lemma releaseSchedule_not_auto (a p : PhaseData) (cfg : PhaseConfig) :
    releaseSchedule false a p cfg = attachSchedule cfg := by
  simp [releaseSchedule]

lemma releaseSchedule_auto_derived (a p : PhaseData) (cfg : PhaseConfig)
    (afcs ptgts : List ℚ) (h : fcSchedule cfg = none)
    (ha : a.force_constants = some afcs) (hp : p.targets = some ptgts) :
    releaseSchedule true a p cfg =
      ⟨some afcs, some (List.replicate afcs.length (ptgts.getLastD 0))⟩ := by
  rw [releaseSchedule, h]
  simp [ha, hp]

lemma linspace_length (a b : ℚ) (n : ℕ) : (linspace a b n).length = n := by
  simp [linspace]

lemma linspace_getD (a b : ℚ) (n i : ℕ) (h : i < n) :
    (linspace a b n).getD i 0 = a + (b - a) * i / ((n : ℚ) - 1) := by
  simp [linspace, List.getD, List.getElem?_map, List.getElem?_range h]

lemma linspace_first (a b : ℚ) (n : ℕ) (h : 0 < n) : (linspace a b n).getD 0 0 = a := by
  rw [linspace_getD a b n 0 h]
  simp

lemma linspace_last (a b : ℚ) (n : ℕ) (h : 2 ≤ n) : (linspace a b n).getD (n - 1) 0 = b := by
  rw [linspace_getD a b n (n - 1) (by omega)]
  have hn : ((n : ℚ) - 1) ≠ 0 := by
    have h2 : (2 : ℚ) ≤ (n : ℚ) := by exact_mod_cast h
    linarith
  have hcast : ((n - 1 : ℕ) : ℚ) = (n : ℚ) - 1 := by
    push_cast [Nat.cast_sub (by omega : 1 ≤ n)]
    ring
  rw [hcast]
  field_simp

lemma linspace_spacing (a b : ℚ) (n i : ℕ) (hn : 2 ≤ n) (h : i + 1 < n) :
    (linspace a b n).getD (i + 1) 0 - (linspace a b n).getD i 0 = (b - a) / ((n : ℚ) - 1) := by
  rw [linspace_getD a b n (i + 1) h, linspace_getD a b n i (by omega)]
  have hn' : ((n : ℚ) - 1) ≠ 0 := by
    have h2 : (2 : ℚ) ≤ (n : ℚ) := by exact_mod_cast hn
    linarith
  push_cast
  field_simp
  ring

lemma filterMap_const_of_forall {α β : Type} (l : List α) (f : α → Option β) (k : β)
    (h : ∀ x ∈ l, f x = some k) : l.filterMap f = List.replicate l.length k := by
  induction l with
  | nil => rfl
  | cons x xs ih =>
    rw [List.filterMap_cons, h x (by simp)]
    simp only [List.length_cons, List.replicate_succ]
    rw [ih (fun y hy => h y (by simp [hy]))]

lemma windowCounts_const (rs : List InitializedRestraint) (p : Phase) (k : ℕ)
    (h : ∀ r ∈ rs, ((r.phaseData p).targets).map List.length = some k) :
    windowCounts rs p = List.replicate rs.length k :=
  filterMap_const_of_forall rs _ k h

lemma phaseWindows_of_const (c : Bool) (rs : List InitializedRestraint) (p : Phase) (k : ℕ)
    (hne : rs ≠ [])
    (h : ∀ r ∈ rs, ((r.phaseData p).targets).map List.length = some k) :
    phaseWindows c rs p = Except.ok (windowLabels c p k) := by
  rw [phaseWindows, windowCounts_const rs p k h]
  cases rs with
  | nil => exact absurd rfl hne
  | cons r rest =>
    simp [List.replicate_succ, List.all_eq_true, List.mem_replicate]

-- ====================================================================== --
-- Claim theorems                                                         --
-- ====================================================================== --

/-- C1: for every restraint whose release phase is configured with the
fraction_increment method with `fraction_increment = 0.33`,
`fc_final = 5.0` and `target = 1.0`, the schedule generator runs the
literal accumulation algorithm on the fractions and scales by `fc_final`,
reproducing the documented overshoot defect: the release force constants
are `[0.0, 1.65, 3.3, 4.95, 6.6]` (five windows, last value 6.6, not 5.0)
and the release targets are `[1.0, 1.0, 1.0, 1.0, 1.0]`. -/
theorem fractionIncrement_overshoot_values (r : DAT_restraint)
    (h1 : r.release.num_windows = none) (h2 : r.release.fc_increment = none)
    (h3 : r.release.fraction_list = none)
    (h4 : r.release.fraction_increment = some 0.33)
    (h5 : r.release.fc_final = some 5) (h6 : r.release.target = some 1) :
    (initRestraint r).releaseData.force_constants = some [0, 1.65, 3.3, 4.95, 6.6] ∧
    (initRestraint r).releaseData.targets = some [1, 1, 1, 1, 1] := by
  have hfc : fcSchedule r.release = some [0, 1.65, 3.3, 4.95, 6.6] := by
    simp only [fcSchedule, h1, h2, h3, h4, h5]
    rw [arange_eq_of_bounds _ _ _ 5 (by norm_num) (by norm_num)]
    norm_num [List.range_succ]
  rw [initRestraint_releaseData, releaseSchedule_of_configured _ _ _ _ _ hfc,
    attachSchedule_of_some _ _ hfc]
  norm_num [h6, List.replicate]

/-- C1 witness: the overshoot theorem applied to the concrete release
configuration of restraint 6 of the in-tree test. -/
theorem fractionIncrement_overshoot_values_witness :
    overshootExample.release.num_windows = none ∧
    overshootExample.release.fc_increment = none ∧
    overshootExample.release.fraction_list = none ∧
    overshootExample.release.fraction_increment = some 0.33 ∧
    overshootExample.release.fc_final = some 5 ∧
    overshootExample.release.target = some 1 ∧
    ((initRestraint overshootExample).releaseData.force_constants =
        some [0, 1.65, 3.3, 4.95, 6.6] ∧
      (initRestraint overshootExample).releaseData.targets = some [1, 1, 1, 1, 1]) :=
  ⟨rfl, rfl, rfl, rfl, rfl, rfl,
    fractionIncrement_overshoot_values overshootExample rfl rfl rfl rfl rfl rfl⟩

/-- C5: for every attach or release phase configured by method 1
(`num_windows = n ≥ 2`, `fc_initial = a`, `fc_final = b`, `target = t`),
the force constants are `n` evenly spaced values starting at `a`, ending
at `b`, with uniform spacing `(b - a) / (n - 1)`, and the targets are `t`
repeated `n` times. -/
theorem method1_evenly_spaced (r : DAT_restraint) (p : Phase) (cfg : PhaseConfig)
    (n : ℕ) (a b t : ℚ)
    (hpc : (p = Phase.attach ∧ cfg = r.attach) ∨ (p = Phase.release ∧ cfg = r.release))
    (hn : 2 ≤ n) (h1 : cfg.num_windows = some n) (h2 : cfg.fc_initial = some a)
    (h3 : cfg.fc_final = some b) (h4 : cfg.target = some t) :
    ∃ fcs : List ℚ, ((initRestraint r).phaseData p).force_constants = some fcs ∧
      fcs.length = n ∧ fcs.getD 0 0 = a ∧ fcs.getD (n - 1) 0 = b ∧
      (∀ i, i + 1 < n → fcs.getD (i + 1) 0 - fcs.getD i 0 = (b - a) / ((n : ℚ) - 1)) ∧
      ((initRestraint r).phaseData p).targets = some (List.replicate n t) := by
  have hfc : fcSchedule cfg = some (linspace a b n) := by
    simp only [fcSchedule, h1, h3, h2, Option.getD_some]
  have hdata : (initRestraint r).phaseData p = attachSchedule cfg := by
    rcases hpc with ⟨hpe, hce⟩ | ⟨hpe, hce⟩
    · subst hpe
      subst hce
      exact initRestraint_attachData r
    · subst hpe
      subst hce
      rw [show (initRestraint r).phaseData Phase.release = (initRestraint r).releaseData from rfl,
        initRestraint_releaseData, releaseSchedule_of_configured _ _ _ _ _ hfc]
  refine ⟨linspace a b n, ?_, linspace_length a b n, linspace_first a b n (by omega),
    linspace_last a b n hn, fun i hi => linspace_spacing a b n i hn hi, ?_⟩
  · rw [hdata, attachSchedule_of_some _ _ hfc]
  · rw [hdata, attachSchedule_of_some _ _ hfc]
    simp [linspace_length, h4]

/-- C5 witness: method 1 applied to the attach phase of restraint 1 of the
in-tree test (`num_windows = 4`, `fc_initial = 0`, `fc_final = 3`,
`target = 3`). -/
theorem method1_evenly_spaced_witness :
    (Phase.attach = Phase.attach ∧ method1Example.attach = method1Example.attach) ∧
    2 ≤ 4 ∧
    method1Example.attach.num_windows = some 4 ∧
    method1Example.attach.fc_initial = some 0 ∧
    method1Example.attach.fc_final = some 3 ∧
    method1Example.attach.target = some 3 ∧
    (∃ fcs : List ℚ,
      ((initRestraint method1Example).phaseData Phase.attach).force_constants = some fcs ∧
      fcs.length = 4 ∧ fcs.getD 0 0 = 0 ∧ fcs.getD (4 - 1) 0 = 3 ∧
      (∀ i, i + 1 < 4 → fcs.getD (i + 1) 0 - fcs.getD i 0 = (3 - 0) / ((4 : ℚ) - 1)) ∧
      ((initRestraint method1Example).phaseData Phase.attach).targets =
        some (List.replicate 4 3)) :=
  ⟨⟨rfl, rfl⟩, by omega, rfl, rfl, rfl, rfl,
    method1_evenly_spaced method1Example Phase.attach method1Example.attach 4 0 3 3
      (Or.inl ⟨rfl, rfl⟩) (by omega) rfl rfl rfl rfl⟩

/-- C6: for every restraint with `auto_apr = true` whose release phase is
not completely configured by one of the five specification methods, while
attach and pull are configured, the release schedule is auto-derived: its
force constants equal the attach phase's force constants and its targets
are the pull phase's final target repeated once per release window. -/
theorem autoApr_release_derivation (r : DAT_restraint) (afcs ptgts : List ℚ)
    (hauto : r.auto_apr = true) (hne : ptgts ≠ [])
    (hrel : fcSchedule r.release = none)
    (ha : fcSchedule r.attach = some afcs)
    (hp : pullTargetSchedule r.pull = some ptgts) :
    (initRestraint r).releaseData.force_constants = some afcs ∧
    (initRestraint r).releaseData.targets =
      some (List.replicate afcs.length (ptgts.getLast hne)) := by
  have hgl : ptgts.getLastD 0 = ptgts.getLast hne := by
    rw [List.getLastD_eq_getLast?, List.getLast?_eq_getLast_of_ne_nil hne]
    rfl
  rw [initRestraint_releaseData, hauto,
    releaseSchedule_auto_derived _ _ _ afcs ptgts hrel
      (by rw [attachSchedule_of_some _ _ ha])
      (by rw [pullSchedule_of_some _ _ hp]),
    hgl]
  exact ⟨rfl, rfl⟩

/-- C6 witness: auto-derivation on a concrete restraint whose attach phase
ramps over `[0, 4]`, whose pull phase ends at target `7`, and whose release
configuration holds only `fc_final` (no complete method). -/
theorem autoApr_release_derivation_witness :
    autoAprExample.auto_apr = true ∧
    fcSchedule autoAprExample.release = none ∧
    fcSchedule autoAprExample.attach = some [0, 4] ∧
    pullTargetSchedule autoAprExample.pull = some [1, 7] ∧
    ((initRestraint autoAprExample).releaseData.force_constants = some [0, 4] ∧
      (initRestraint autoAprExample).releaseData.targets = some [7, 7]) := by
  have ha : fcSchedule autoAprExample.attach = some [0, 4] := by
    norm_num [fcSchedule, autoAprExample, linspace, List.range_succ]
  have hp : pullTargetSchedule autoAprExample.pull = some [1, 7] := by
    norm_num [pullTargetSchedule, autoAprExample, linspace, List.range_succ]
  refine ⟨rfl, rfl, ha, hp, ?_⟩
  have h := autoApr_release_derivation autoAprExample [0, 4] [1, 7] rfl (by simp) rfl ha hp
  simpa using h

/-- C2: for every non-empty collection of initialized restraints that all
have `continuous_apr = true` and agree on attach / pull / release window
counts `Na`, `Np`, `Nr`, the window list omits exactly the last attach
window and the first release window while keeping all pull windows:
`a000..a(Na-2)`, then `p000..p(Np-1)`, then `r001..r(Nr-1)`, for a total
of `Na + Np + Nr - 2` windows. -/
theorem continuousApr_window_list (rs : List InitializedRestraint) (Na Np Nr : ℕ)
    (hne : rs ≠ []) (hNa : 1 ≤ Na) (hNr : 1 ≤ Nr)
    (hc : ∀ r ∈ rs, r.continuous_apr = true)
    (ha : ∀ r ∈ rs, ((r.phaseData Phase.attach).targets).map List.length = some Na)
    (hp : ∀ r ∈ rs, ((r.phaseData Phase.pull).targets).map List.length = some Np)
    (hr : ∀ r ∈ rs, ((r.phaseData Phase.release).targets).map List.length = some Nr) :
    create_window_list rs =
      Except.ok ((List.range (Na - 1)).map (fun i => "a" ++ zfill3 i) ++
        (List.range Np).map (fun i => "p" ++ zfill3 i) ++
        (List.range' 1 (Nr - 1)).map (fun i => "r" ++ zfill3 i)) ∧
    ((List.range (Na - 1)).map (fun i => "a" ++ zfill3 i) ++
      (List.range Np).map (fun i => "p" ++ zfill3 i) ++
      (List.range' 1 (Nr - 1)).map (fun i => "r" ++ zfill3 i)).length = Na + Np + Nr - 2 := by
  have hall : rs.all (fun r => r.continuous_apr) = true :=
    List.all_eq_true.mpr (fun r h => hc r h)
  have hA := phaseWindows_of_const true rs Phase.attach Na hne ha
  have hP := phaseWindows_of_const true rs Phase.pull Np hne hp
  have hR := phaseWindows_of_const true rs Phase.release Nr hne hr
  have hLa : windowLabels true Phase.attach Na =
      (List.range (Na - 1)).map (fun i => "a" ++ zfill3 i) := by
    simp [windowLabels]
  have hLp : windowLabels true Phase.pull Np =
      (List.range Np).map (fun i => "p" ++ zfill3 i) := by
    simp [windowLabels, phaseLetter]
  have hLr : windowLabels true Phase.release Nr =
      (List.range' 1 (Nr - 1)).map (fun i => "r" ++ zfill3 i) := by
    simp [windowLabels]
  constructor
  · simp only [create_window_list, hall, if_true]
    rw [combineWindows, hA, hP, hR, hLa, hLp, hLr]
  · simp only [List.length_append, List.length_map, List.length_range, List.length_range']
    omega

/-- C2 witness: the merging theorem applied to a single restraint with
attach 3, pull 4, release 4 windows and `continuous_apr = true`, giving the
9 windows of the spec's example. -/
theorem continuousApr_window_list_witness :
    ([initRestraint continuousExample] ≠ ([] : List InitializedRestraint)) ∧
    (∀ r ∈ [initRestraint continuousExample], r.continuous_apr = true) ∧
    (∀ r ∈ [initRestraint continuousExample],
      ((r.phaseData Phase.attach).targets).map List.length = some 3) ∧
    (∀ r ∈ [initRestraint continuousExample],
      ((r.phaseData Phase.pull).targets).map List.length = some 4) ∧
    (∀ r ∈ [initRestraint continuousExample],
      ((r.phaseData Phase.release).targets).map List.length = some 4) ∧
    create_window_list [initRestraint continuousExample] =
      Except.ok ["a000", "a001", "p000", "p001", "p002", "p003", "r001", "r002", "r003"] := by
  have hnorm : initRestraint continuousExample =
      ⟨true, {}, ⟨some [0, 1, 2], some [0, 0, 0]⟩,
        ⟨some [2, 2, 2, 2], some [0, 1, 2, 3]⟩,
        ⟨some [0, 1, 2, 3], some [3, 3, 3, 3]⟩⟩ := by
    norm_num [initRestraint, releaseSchedule, attachSchedule, pullSchedule, fcSchedule,
      pullTargetSchedule, continuousExample, List.replicate, CustomValues.mk.injEq]
  have hc : ∀ r ∈ [initRestraint continuousExample], r.continuous_apr = true := by
    intro r hm
    rw [List.mem_singleton] at hm
    subst hm
    rw [hnorm]
  have ha : ∀ r ∈ [initRestraint continuousExample],
      ((r.phaseData Phase.attach).targets).map List.length = some 3 := by
    intro r hm
    rw [List.mem_singleton] at hm
    subst hm
    rw [hnorm]
    rfl
  have hp : ∀ r ∈ [initRestraint continuousExample],
      ((r.phaseData Phase.pull).targets).map List.length = some 4 := by
    intro r hm
    rw [List.mem_singleton] at hm
    subst hm
    rw [hnorm]
    rfl
  have hr : ∀ r ∈ [initRestraint continuousExample],
      ((r.phaseData Phase.release).targets).map List.length = some 4 := by
    intro r hm
    rw [List.mem_singleton] at hm
    subst hm
    rw [hnorm]
    rfl
  refine ⟨by simp, hc, ha, hp, hr, ?_⟩
  have h := continuousApr_window_list [initRestraint continuousExample] 3 4 4
    (by simp) (by omega) (by omega) hc ha hp hr
  rw [h.1]
  rfl

lemma mem_windowCounts (rs : List InitializedRestraint) (p : Phase) (n : ℕ) :
    n ∈ windowCounts rs p ↔
      ∃ r ∈ rs, ∃ t : List ℚ, (r.phaseData p).targets = some t ∧ t.length = n := by
  constructor
  · intro h
    rcases List.mem_filterMap.mp h with ⟨r, hr, hf⟩
    rcases Option.map_eq_some'.mp hf with ⟨t, ht, hl⟩
    exact ⟨r, hr, t, ht, hl⟩
  · rintro ⟨r, hr, t, ht, hl⟩
    refine List.mem_filterMap.mpr ⟨r, hr, ?_⟩
    rw [ht]
    simpa using hl

lemma phaseWindows_error_iff (c : Bool) (rs : List InitializedRestraint) (p : Phase) :
    (∃ e, phaseWindows c rs p = Except.error e) ↔
      ∃ n₁ ∈ windowCounts rs p, ∃ n₂ ∈ windowCounts rs p, n₁ ≠ n₂ := by
  cases hcounts : windowCounts rs p with
  | nil =>
    simp only [phaseWindows, hcounts]
    constructor
    · rintro ⟨e, he⟩
      exact absurd he (by simp)
    · rintro ⟨n₁, hn₁, _⟩
      exact absurd hn₁ (by simp)
  | cons n rest =>
    simp only [phaseWindows, hcounts]
    by_cases hall : rest.all (fun m => m == n) = true
    · rw [if_pos hall]
      have heq : ∀ m ∈ n :: rest, m = n := by
        intro m hm
        rcases List.mem_cons.mp hm with h | h
        · exact h
        · simpa using List.all_eq_true.mp hall m h
      constructor
      · rintro ⟨e, he⟩
        exact absurd he (by simp)
      · rintro ⟨n₁, hn₁, n₂, hn₂, hne⟩
        exact absurd (heq n₁ hn₁ ▸ heq n₂ hn₂ ▸ rfl) hne
    · rw [if_neg hall]
      constructor
      · intro _
        have hex : ∃ m ∈ rest, (m == n) = false := by
          by_contra hcon
          push_neg at hcon
          refine hall (List.all_eq_true.mpr (fun m hm => ?_))
          cases h : (m == n) with
          | false => exact absurd h (hcon m hm)
          | true => rfl
        rcases hex with ⟨m, hm, hmn⟩
        refine ⟨n, List.mem_cons_self n rest, m, List.mem_cons_of_mem n hm, ?_⟩
        intro hcontra
        rw [hcontra] at hmn
        simp at hmn
      · intro _
        exact ⟨"Restraints have unequal number of windows", rfl⟩

lemma combineWindows_error_iff (c : Bool) (rs : List InitializedRestraint) :
    (∃ e, combineWindows c rs = Except.error e) ↔
      ((∃ e, phaseWindows c rs Phase.attach = Except.error e) ∨
        (∃ e, phaseWindows c rs Phase.pull = Except.error e) ∨
        (∃ e, phaseWindows c rs Phase.release = Except.error e)) := by
  rcases hA : phaseWindows c rs Phase.attach with eA | a <;>
    rcases hP : phaseWindows c rs Phase.pull with eP | p <;>
      rcases hR : phaseWindows c rs Phase.release with eR | r <;>
        simp [combineWindows, hA, hP, hR]

lemma countPair_iff (c : Bool) (rs : List InitializedRestraint) :
    (∃ e, combineWindows c rs = Except.error e) ↔
      (∃ p : Phase, ∃ r₁ ∈ rs, ∃ r₂ ∈ rs, ∃ t₁ t₂ : List ℚ,
        (r₁.phaseData p).targets = some t₁ ∧ (r₂.phaseData p).targets = some t₂ ∧
        t₁.length ≠ t₂.length) := by
  have hph : ∀ p : Phase, (∃ e, phaseWindows c rs p = Except.error e) ↔
      (∃ r₁ ∈ rs, ∃ r₂ ∈ rs, ∃ t₁ t₂ : List ℚ,
        (r₁.phaseData p).targets = some t₁ ∧ (r₂.phaseData p).targets = some t₂ ∧
        t₁.length ≠ t₂.length) := by
    intro p
    rw [phaseWindows_error_iff]
    constructor
    · rintro ⟨n₁, hn₁, n₂, hn₂, hne⟩
      rcases (mem_windowCounts rs p n₁).mp hn₁ with ⟨r₁, hr₁, t₁, ht₁, hl₁⟩
      rcases (mem_windowCounts rs p n₂).mp hn₂ with ⟨r₂, hr₂, t₂, ht₂, hl₂⟩
      exact ⟨r₁, hr₁, r₂, hr₂, t₁, t₂, ht₁, ht₂, by rw [hl₁, hl₂]; exact hne⟩
    · rintro ⟨r₁, hr₁, r₂, hr₂, t₁, t₂, ht₁, ht₂, hne⟩
      exact ⟨t₁.length, (mem_windowCounts rs p _).mpr ⟨r₁, hr₁, t₁, ht₁, rfl⟩,
        t₂.length, (mem_windowCounts rs p _).mpr ⟨r₂, hr₂, t₂, ht₂, rfl⟩, hne⟩
  rw [combineWindows_error_iff]
  constructor
  · rintro (h | h | h)
    · exact ⟨Phase.attach, (hph Phase.attach).mp h⟩
    · exact ⟨Phase.pull, (hph Phase.pull).mp h⟩
    · exact ⟨Phase.release, (hph Phase.release).mp h⟩
  · rintro ⟨p, hp⟩
    cases p with
    | attach => exact Or.inl ((hph Phase.attach).mpr hp)
    | pull => exact Or.inr (Or.inl ((hph Phase.pull).mpr hp))
    | release => exact Or.inr (Or.inr ((hph Phase.release).mpr hp))

/-- C3: `create_window_list` fails with a ConsistencyError exactly when two
restraints of its input disagree on the `continuous_apr` flag, or two
restraints both configure the same phase with different window counts;
restraints that leave a phase absent (`targets = none`) are excluded from
that phase's count check, as only restraints reporting `some` count can
witness a mismatch. -/
theorem create_window_list_error_iff (rs : List InitializedRestraint) :
    (∃ e, create_window_list rs = Except.error e) ↔
      ((∃ r₁ ∈ rs, r₁.continuous_apr = true) ∧ (∃ r₂ ∈ rs, r₂.continuous_apr = false)) ∨
      (∃ p : Phase, ∃ r₁ ∈ rs, ∃ r₂ ∈ rs, ∃ t₁ t₂ : List ℚ,
        (r₁.phaseData p).targets = some t₁ ∧ (r₂.phaseData p).targets = some t₂ ∧
        t₁.length ≠ t₂.length) := by
  by_cases h1 : rs.all (fun r => r.continuous_apr) = true
  · have hnomix : ¬∃ r₂ ∈ rs, r₂.continuous_apr = false := by
      rintro ⟨r, hr, hf⟩
      have := List.all_eq_true.mp h1 r hr
      rw [hf] at this
      exact Bool.false_ne_true this
    simp only [create_window_list, h1, if_true]
    rw [countPair_iff]
    constructor
    · exact Or.inr
    · rintro (⟨_, hmix⟩ | h)
      · exact absurd hmix hnomix
      · exact h
  · by_cases h2 : rs.all (fun r => !r.continuous_apr) = true
    · have hnomix : ¬∃ r₁ ∈ rs, r₁.continuous_apr = true := by
        rintro ⟨r, hr, ht⟩
        have := List.all_eq_true.mp h2 r hr
        rw [ht] at this
        simp at this
      have h1' : rs.all (fun r => r.continuous_apr) = false := by
        cases h : rs.all (fun r => r.continuous_apr) with
        | false => rfl
        | true => exact absurd h h1
      simp only [create_window_list, h1', Bool.false_eq_true, if_false, h2, if_true]
      rw [countPair_iff]
      constructor
      · exact Or.inr
      · rintro (⟨hmix, _⟩ | h)
        · exact absurd hmix hnomix
        · exact h
    · have h1' : rs.all (fun r => r.continuous_apr) = false := by
        cases h : rs.all (fun r => r.continuous_apr) with
        | false => rfl
        | true => exact absurd h h1
      have h2' : rs.all (fun r => !r.continuous_apr) = false := by
        cases h : rs.all (fun r => !r.continuous_apr) with
        | false => rfl
        | true => exact absurd h h2
      have hex1 : ∃ r ∈ rs, r.continuous_apr = false := by
        by_contra hcon
        push_neg at hcon
        refine h1 (List.all_eq_true.mpr (fun r hr => ?_))
        cases h : r.continuous_apr with
        | false => exact absurd h (hcon r hr)
        | true => rfl
      have hex2 : ∃ r ∈ rs, r.continuous_apr = true := by
        by_contra hcon
        push_neg at hcon
        refine h2 (List.all_eq_true.mpr (fun r hr => ?_))
        cases h : r.continuous_apr with
        | false => simp [h]
        | true => exact absurd h (hcon r hr)
      constructor
      · intro _
        exact Or.inl ⟨hex2, hex1⟩
      · intro _
        exact ⟨"All restraints must have the same setting for continuous_apr",
          by simp [create_window_list, h1', h2', Bool.false_eq_true, if_false]⟩

/-- C3 witness: the consistency theorem applied to a concrete pair of
restraints with conflicting `continuous_apr` flags. -/
theorem create_window_list_error_iff_witness :
    ((∃ r₁ ∈ [flagTrueExample, flagFalseExample], r₁.continuous_apr = true) ∧
      (∃ r₂ ∈ [flagTrueExample, flagFalseExample], r₂.continuous_apr = false)) ∧
    (∃ e, create_window_list [flagTrueExample, flagFalseExample] = Except.error e) := by
  have hmix : (∃ r₁ ∈ [flagTrueExample, flagFalseExample], r₁.continuous_apr = true) ∧
      (∃ r₂ ∈ [flagTrueExample, flagFalseExample], r₂.continuous_apr = false) :=
    ⟨⟨flagTrueExample, by simp, rfl⟩, ⟨flagFalseExample, by simp, rfl⟩⟩
  exact ⟨hmix, (create_window_list_error_iff _).mpr (Or.inl hmix)⟩

/-- C7: for every initialized restraint, configured phase and valid window
index, `get_restraint_values` returns exactly the six keys with defaults
`r1 = 0`, `r4 = 999`, `r2 = r3 =` the phase's target at the index,
`rk2 = rk3 =` the phase's force constant there; and every key present in
`custom_restraint_values` overrides its default, identically for every
phase and window index. -/
theorem get_restraint_values_spec (r : InitializedRestraint) (p : Phase) (i : ℕ)
    (tgts fcs : List ℚ)
    (ht : (r.phaseData p).targets = some tgts)
    (hf : (r.phaseData p).force_constants = some fcs)
    (hit : i < tgts.length) (hif : i < fcs.length) :
    (r.custom_restraint_values.r1 = none → (get_restraint_values r p i).r1 = 0) ∧
    (∀ x, r.custom_restraint_values.r1 = some x → (get_restraint_values r p i).r1 = x) ∧
    (r.custom_restraint_values.r2 = none →
      (get_restraint_values r p i).r2 = tgts.getD i 0) ∧
    (∀ x, r.custom_restraint_values.r2 = some x → (get_restraint_values r p i).r2 = x) ∧
    (r.custom_restraint_values.r3 = none →
      (get_restraint_values r p i).r3 = tgts.getD i 0) ∧
    (∀ x, r.custom_restraint_values.r3 = some x → (get_restraint_values r p i).r3 = x) ∧
    (r.custom_restraint_values.r4 = none → (get_restraint_values r p i).r4 = 999) ∧
    (∀ x, r.custom_restraint_values.r4 = some x → (get_restraint_values r p i).r4 = x) ∧
    (r.custom_restraint_values.rk2 = none →
      (get_restraint_values r p i).rk2 = fcs.getD i 0) ∧
    (∀ x, r.custom_restraint_values.rk2 = some x → (get_restraint_values r p i).rk2 = x) ∧
    (r.custom_restraint_values.rk3 = none →
      (get_restraint_values r p i).rk3 = fcs.getD i 0) ∧
    (∀ x, r.custom_restraint_values.rk3 = some x → (get_restraint_values r p i).rk3 = x) := by
  refine ⟨?_, ?_, ?_, ?_, ?_, ?_, ?_, ?_, ?_, ?_, ?_, ?_⟩
  all_goals intros
  all_goals simp [get_restraint_values, ht, hf, *]

/-- C7 witness: the extraction theorem applied to the wall restraint of
`test_get_restraint_values` (custom overrides `r2 = 0`, `r3 = 3.5`,
`rk2 = rk3 = 1`; defaults for `r1` and `r4`). -/
theorem get_restraint_values_spec_witness :
    (wallExample.phaseData Phase.attach).targets = some [3.5, 3.5] ∧
    (wallExample.phaseData Phase.attach).force_constants = some [1, 1] ∧
    (get_restraint_values wallExample Phase.attach 0).r1 = 0 ∧
    (get_restraint_values wallExample Phase.attach 0).r2 = 0 ∧
    (get_restraint_values wallExample Phase.attach 0).r3 = 3.5 ∧
    (get_restraint_values wallExample Phase.attach 0).r4 = 999 ∧
    (get_restraint_values wallExample Phase.attach 0).rk2 = 1 ∧
    (get_restraint_values wallExample Phase.attach 0).rk3 = 1 := by
  have h := get_restraint_values_spec wallExample Phase.attach 0 [3.5, 3.5] [1, 1]
    rfl rfl (by norm_num) (by norm_num)
  exact ⟨rfl, rfl, h.1 rfl, h.2.2.2.1 0 rfl, h.2.2.2.2.2.1 3.5 rfl,
    h.2.2.2.2.2.2.1 rfl, h.2.2.2.2.2.2.2.2.2.1 1 rfl,
    h.2.2.2.2.2.2.2.2.2.2.2 1 rfl⟩

lemma biasTag_spec (v : RestraintValues) :
    (v.rk2 = 0 ∧ v.rk3 ≠ 0 → biasTag v = "upper_walls") ∧
    (v.rk3 = 0 ∧ v.rk2 ≠ 0 → biasTag v = "lower_walls") ∧
    (¬(v.rk2 = 0 ∧ v.rk3 ≠ 0) → ¬(v.rk3 = 0 ∧ v.rk2 ≠ 0) → v.r2 = v.r3 →
      biasTag v = "restraint") ∧
    (¬(v.rk2 = 0 ∧ v.rk3 ≠ 0) → ¬(v.rk3 = 0 ∧ v.rk2 ≠ 0) → v.r2 < v.r3 →
      biasTag v = "upper_walls") ∧
    (¬(v.rk2 = 0 ∧ v.rk3 ≠ 0) → ¬(v.rk3 = 0 ∧ v.rk2 ≠ 0) → v.r3 < v.r2 →
      biasTag v = "lower_walls") := by
  refine ⟨?_, ?_, ?_, ?_, ?_⟩
  · intro h
    simp only [biasTag]
    rw [if_pos h]
  · intro h2
    have h1 : ¬(v.rk2 = 0 ∧ v.rk3 ≠ 0) := by
      rintro ⟨ha, _⟩
      exact h2.2 ha
    simp only [biasTag]
    rw [if_neg h1, if_pos h2]
  · intro h1 h2 h3
    simp only [biasTag]
    rw [if_neg h1, if_neg h2, if_pos h3]
  · intro h1 h2 h4
    simp only [biasTag]
    rw [if_neg h1, if_neg h2, if_neg (ne_of_lt h4), if_pos h4]
  · intro h1 h2 h5
    simp only [biasTag]
    rw [if_neg h1, if_neg h2, if_neg (ne_of_gt h5), if_neg (not_lt.mpr (le_of_lt h5))]

/-- C8: for every parameter combination produced by
`get_restraint_values`, `get_bias_potential_type` returns the tag of the
first matching rule in the fixed order: (1) `rk2 = 0` and `rk3 ≠ 0` give
"upper_walls"; (2) `rk3 = 0` and `rk2 ≠ 0` give "lower_walls"; when
neither fires, (3) `r2 = r3` gives "restraint" (including the degenerate
case `rk2 = rk3 = 0`), (4) `r2 < r3` gives "upper_walls", and
(5) `r2 > r3` gives "lower_walls". -/
theorem get_bias_potential_type_rule_order (r : InitializedRestraint) (p : Phase) (i : ℕ) :
    ((get_restraint_values r p i).rk2 = 0 ∧ (get_restraint_values r p i).rk3 ≠ 0 →
      get_bias_potential_type r p i = "upper_walls") ∧
    ((get_restraint_values r p i).rk3 = 0 ∧ (get_restraint_values r p i).rk2 ≠ 0 →
      get_bias_potential_type r p i = "lower_walls") ∧
    (¬((get_restraint_values r p i).rk2 = 0 ∧ (get_restraint_values r p i).rk3 ≠ 0) →
      ¬((get_restraint_values r p i).rk3 = 0 ∧ (get_restraint_values r p i).rk2 ≠ 0) →
      (get_restraint_values r p i).r2 = (get_restraint_values r p i).r3 →
      get_bias_potential_type r p i = "restraint") ∧
    (¬((get_restraint_values r p i).rk2 = 0 ∧ (get_restraint_values r p i).rk3 ≠ 0) →
      ¬((get_restraint_values r p i).rk3 = 0 ∧ (get_restraint_values r p i).rk2 ≠ 0) →
      (get_restraint_values r p i).r2 < (get_restraint_values r p i).r3 →
      get_bias_potential_type r p i = "upper_walls") ∧
    (¬((get_restraint_values r p i).rk2 = 0 ∧ (get_restraint_values r p i).rk3 ≠ 0) →
      ¬((get_restraint_values r p i).rk3 = 0 ∧ (get_restraint_values r p i).rk2 ≠ 0) →
      (get_restraint_values r p i).r3 < (get_restraint_values r p i).r2 →
      get_bias_potential_type r p i = "lower_walls") :=
  biasTag_spec (get_restraint_values r p i)

/-- C8 witness: the classifier theorem applied to the second upper-wall
scenario of `test_get_bias_potential_type` (`rk2 = 0`, `rk3 = 1`). -/
theorem get_bias_potential_type_rule_order_witness :
    ((get_restraint_values upperWallExample Phase.attach 0).rk2 = 0 ∧
      (get_restraint_values upperWallExample Phase.attach 0).rk3 ≠ 0) ∧
    get_bias_potential_type upperWallExample Phase.attach 0 = "upper_walls" := by
  have hcond : (get_restraint_values upperWallExample Phase.attach 0).rk2 = 0 ∧
      (get_restraint_values upperWallExample Phase.attach 0).rk3 ≠ 0 := by
    constructor
    · rfl
    · norm_num [get_restraint_values, upperWallExample, InitializedRestraint.phaseData]
  exact ⟨hcond, (get_bias_potential_type_rule_order upperWallExample Phase.attach 0).1 hcond⟩

lemma releaseSchedule_auto_fallback (a p : PhaseData) (cfg : PhaseConfig)
    (h : fcSchedule cfg = none) (hfail : a.force_constants = none ∨ p.targets = none) :
    releaseSchedule true a p cfg = ⟨none, none⟩ := by
  rw [releaseSchedule, h]
  rcases hfail with h' | h'
  · rw [h']
    simp
  · rw [h']
    simp

lemma attachLike_invariants (cfg : PhaseConfig) :
    ((attachSchedule cfg).force_constants = none ↔ (attachSchedule cfg).targets = none) ∧
    (∀ fcs tgts : List ℚ, (attachSchedule cfg).force_constants = some fcs →
      (attachSchedule cfg).targets = some tgts → fcs.length = tgts.length) ∧
    (fcSchedule cfg = none →
      (attachSchedule cfg).force_constants = none ∧ (attachSchedule cfg).targets = none) ∧
    (∀ l : List ℚ, fcSchedule cfg = some l →
      ∃ fcs tgts : List ℚ, (attachSchedule cfg).force_constants = some fcs ∧
        (attachSchedule cfg).targets = some tgts ∧ fcs.length = tgts.length) := by
  cases h : fcSchedule cfg with
  | none =>
    rw [attachSchedule_of_none _ h]
    refine ⟨by simp, ?_, fun _ => ⟨rfl, rfl⟩, ?_⟩
    · intro fcs tgts h1 h2
      cases h1
    · intro l hl
      cases hl
  | some fcs =>
    rw [attachSchedule_of_some _ _ h]
    refine ⟨by simp, ?_, ?_, ?_⟩
    · intro fcs' tgts' h1 h2
      cases h1
      cases h2
      simp
    · intro hn
      cases hn
    · intro l hl
      exact ⟨fcs, List.replicate fcs.length (cfg.target.getD 0), rfl, rfl, by simp⟩

lemma pullLike_invariants (cfg : PhaseConfig) :
    ((pullSchedule cfg).force_constants = none ↔ (pullSchedule cfg).targets = none) ∧
    (∀ fcs tgts : List ℚ, (pullSchedule cfg).force_constants = some fcs →
      (pullSchedule cfg).targets = some tgts → fcs.length = tgts.length) ∧
    (pullTargetSchedule cfg = none →
      (pullSchedule cfg).force_constants = none ∧ (pullSchedule cfg).targets = none) ∧
    (∀ l : List ℚ, pullTargetSchedule cfg = some l →
      ∃ fcs tgts : List ℚ, (pullSchedule cfg).force_constants = some fcs ∧
        (pullSchedule cfg).targets = some tgts ∧ fcs.length = tgts.length) := by
  cases h : pullTargetSchedule cfg with
  | none =>
    rw [pullSchedule_of_none _ h]
    refine ⟨by simp, ?_, fun _ => ⟨rfl, rfl⟩, ?_⟩
    · intro fcs tgts h1 h2
      cases h1
    · intro l hl
      cases hl
  | some tgts =>
    rw [pullSchedule_of_some _ _ h]
    refine ⟨by simp, ?_, ?_, ?_⟩
    · intro fcs' tgts' h1 h2
      cases h1
      cases h2
      simp
    · intro hn
      cases hn
    · intro l hl
      exact ⟨List.replicate tgts.length (cfg.fc.getD 0), tgts, rfl, rfl, by simp⟩

/-- C9 (amended): for every restraint after initialization and every
phase, `force_constants` and `targets` are `none` together; whenever both
are present they have equal length; a phase with no complete specification
method yields `none`/`none` — except a release phase under
`auto_apr = true`, which may be auto-derived and populated; and a phase
with a complete method (any of the five) always yields two equal-length
sequences. -/
theorem phase_schedule_invariants (r : DAT_restraint) (p : Phase) :
    (((initRestraint r).phaseData p).force_constants = none ↔
      ((initRestraint r).phaseData p).targets = none) ∧
    (∀ fcs tgts : List ℚ,
      ((initRestraint r).phaseData p).force_constants = some fcs →
      ((initRestraint r).phaseData p).targets = some tgts →
      fcs.length = tgts.length) ∧
    (rawSchedule r p = none → (p = Phase.release → r.auto_apr = false) →
      ((initRestraint r).phaseData p).force_constants = none ∧
      ((initRestraint r).phaseData p).targets = none) ∧
    (∀ l : List ℚ, rawSchedule r p = some l →
      ∃ fcs tgts : List ℚ,
        ((initRestraint r).phaseData p).force_constants = some fcs ∧
        ((initRestraint r).phaseData p).targets = some tgts ∧
        fcs.length = tgts.length) := by
  cases p with
  | attach =>
    have hpd : (initRestraint r).phaseData Phase.attach = attachSchedule r.attach := rfl
    have hraw : rawSchedule r Phase.attach = fcSchedule r.attach := rfl
    rw [hpd, hraw]
    have h := attachLike_invariants r.attach
    exact ⟨h.1, h.2.1, fun hn _ => h.2.2.1 hn, h.2.2.2⟩
  | pull =>
    have hpd : (initRestraint r).phaseData Phase.pull = pullSchedule r.pull := rfl
    have hraw : rawSchedule r Phase.pull = pullTargetSchedule r.pull := rfl
    rw [hpd, hraw]
    have h := pullLike_invariants r.pull
    exact ⟨h.1, h.2.1, fun hn _ => h.2.2.1 hn, h.2.2.2⟩
  | release =>
    have hpd : (initRestraint r).phaseData Phase.release =
        releaseSchedule r.auto_apr (attachSchedule r.attach) (pullSchedule r.pull) r.release :=
      rfl
    have hraw : rawSchedule r Phase.release = fcSchedule r.release := rfl
    rw [hpd, hraw]
    cases hfc : fcSchedule r.release with
    | some l =>
      rw [releaseSchedule_of_configured _ _ _ _ _ hfc]
      have h := attachLike_invariants r.release
      refine ⟨h.1, h.2.1, ?_, ?_⟩
      · intro hn
        cases hn
      · intro l' hl'
        cases hl'
        exact h.2.2.2 _ hfc
    | none =>
      cases hauto : r.auto_apr with
      | false =>
        rw [releaseSchedule_not_auto]
        have h := attachLike_invariants r.release
        exact ⟨h.1, h.2.1, fun _ _ => h.2.2.1 hfc, fun l hl => by cases hl⟩
      | true =>
        have hvac : (Phase.release = Phase.release → (true : Bool) = false) → False := by
          intro h2
          simpa using h2 rfl
        cases hA : (attachSchedule r.attach).force_constants with
        | none =>
          rw [releaseSchedule_auto_fallback _ _ _ hfc (Or.inl hA)]
          refine ⟨by simp, ?_, fun _ _ => ⟨rfl, rfl⟩, ?_⟩
          · intro fcs tgts h1 h2
            cases h1
          · intro l hl
            cases hl
        | some afcs =>
          cases hP : (pullSchedule r.pull).targets with
          | none =>
            rw [releaseSchedule_auto_fallback _ _ _ hfc (Or.inr hP)]
            refine ⟨by simp, ?_, fun _ _ => ⟨rfl, rfl⟩, ?_⟩
            · intro fcs tgts h1 h2
              cases h1
            · intro l hl
              cases hl
          | some ptgts =>
            rw [releaseSchedule_auto_derived _ _ _ afcs ptgts hfc hA hP]
            refine ⟨by simp, ?_, fun _ h2 => absurd h2 hvac, ?_⟩
            · intro fcs' tgts' h1 h2
              cases h1
              cases h2
              simp
            · intro l hl
              cases hl

/-- C9 counterexample: a restraint with `auto_apr = true` and an entirely
unconfigured release phase (no specification-method key set at all) still
receives non-`none` release schedules after initialization, contradicting
the claim that a phase with no method keys always has both sequences
`None`. -/
theorem autoApr_release_not_none_counterexample :
    autoAprEmptyRelease.release = ({} : PhaseConfig) ∧
    rawSchedule autoAprEmptyRelease Phase.release = none ∧
    (initRestraint autoAprEmptyRelease).releaseData.force_constants ≠ none ∧
    (initRestraint autoAprEmptyRelease).releaseData.targets ≠ none := by
  have ha : fcSchedule autoAprEmptyRelease.attach = some (linspace 0 4 2) := rfl
  have hp : pullTargetSchedule autoAprEmptyRelease.pull = some (linspace 1 7 2) := rfl
  have hrel : fcSchedule autoAprEmptyRelease.release = none := rfl
  have hdata : (initRestraint autoAprEmptyRelease).releaseData =
      ⟨some (linspace 0 4 2),
        some (List.replicate (linspace 0 4 2).length ((linspace 1 7 2).getLastD 0))⟩ := by
    rw [initRestraint_releaseData, show autoAprEmptyRelease.auto_apr = true from rfl,
      releaseSchedule_auto_derived _ _ _ (linspace 0 4 2) (linspace 1 7 2) hrel
        (by rw [attachSchedule_of_some _ _ ha])
        (by rw [pullSchedule_of_some _ _ hp])]
  refine ⟨rfl, rfl, ?_, ?_⟩
  · rw [hdata]
    simp
  · rw [hdata]
    simp

/-- C9 witness: the amended invariants applied to a concrete method-1
restraint: its configured attach phase yields equal-length sequences. -/
theorem phase_schedule_invariants_witness :
    rawSchedule method1Example Phase.attach = some (linspace 0 3 4) ∧
    (∃ fcs tgts : List ℚ,
      ((initRestraint method1Example).phaseData Phase.attach).force_constants = some fcs ∧
      ((initRestraint method1Example).phaseData Phase.attach).targets = some tgts ∧
      fcs.length = tgts.length) :=
  ⟨rfl, (phase_schedule_invariants method1Example Phase.attach).2.2.2 _ rfl⟩

/-- C4 counterexample: for the collection holding exactly one distance, one
theta-shaped and one beta-shaped restraint, the guest classifier leaves
slot 2 empty and fills slot 4 — the beta restraint does not land in
index 2, contradicting the claimed `[distance, theta, beta, phi, alpha,
gamma]` slot order. -/
theorem extract_guest_restraints_claimed_slots_false :
    extract_guest_restraints guestTriple =
      [some [MaskAtom.anchor, MaskAtom.guest],
        some [MaskAtom.anchor, MaskAtom.guest, MaskAtom.guest], none, none,
        some [MaskAtom.anchor, MaskAtom.anchor, MaskAtom.guest], none] ∧
    (extract_guest_restraints guestTriple).getD 2 none = none ∧
    (extract_guest_restraints guestTriple).getD 4 none ≠ none := by
  refine ⟨by decide, by decide, by decide⟩

/-- C4 (amended): the six slots are ordered distance, theta, phi, alpha,
beta, gamma (the order pinned by the in-tree test); for a collection
consisting of exactly one distance, one theta-shaped and one beta-shaped
restraint, slots 0, 1 and 4 are filled and slots 2, 3 and 5 are `none`. -/
theorem extract_guest_restraints_slot_assignment (d t b : List MaskAtom)
    (hd : classifyGuestRestraint d = some GuestDOF.r)
    (ht : classifyGuestRestraint t = some GuestDOF.theta)
    (hb : classifyGuestRestraint b = some GuestDOF.beta) :
    extract_guest_restraints [d, t, b] =
      [some d, some t, none, none, some b, none] := by
  simp only [extract_guest_restraints, List.foldl_cons, List.foldl_nil, hd, ht, hb]
  rfl

/-- C4 witness: the amended slot assignment evaluated on the concrete
anchor/guest patterns of the three restraints of the in-tree test. -/
theorem extract_guest_restraints_slot_assignment_witness :
    classifyGuestRestraint [MaskAtom.anchor, MaskAtom.guest] = some GuestDOF.r ∧
    classifyGuestRestraint [MaskAtom.anchor, MaskAtom.guest, MaskAtom.guest] =
      some GuestDOF.theta ∧
    classifyGuestRestraint [MaskAtom.anchor, MaskAtom.anchor, MaskAtom.guest] =
      some GuestDOF.beta ∧
    extract_guest_restraints
        [[MaskAtom.anchor, MaskAtom.guest],
          [MaskAtom.anchor, MaskAtom.guest, MaskAtom.guest],
          [MaskAtom.anchor, MaskAtom.anchor, MaskAtom.guest]] =
      [some [MaskAtom.anchor, MaskAtom.guest],
        some [MaskAtom.anchor, MaskAtom.guest, MaskAtom.guest], none, none,
        some [MaskAtom.anchor, MaskAtom.anchor, MaskAtom.guest], none] :=
  ⟨rfl, rfl, rfl, extract_guest_restraints_slot_assignment _ _ _ rfl rfl rfl⟩

/-- C10 counterexample: `index_from_mask` on a structure of two atoms and a
well-formed mask matching none of them returns the empty index list as an
ordinary result; it does not fail. -/
theorem index_from_mask_empty_ok_counterexample :
    selectedIndices ["K+", "Cl-"] "Na+" = [] ∧
    index_from_mask ["K+", "Cl-"] "Na+" false = Except.ok [] ∧
    ∀ e, index_from_mask ["K+", "Cl-"] "Na+" false ≠ Except.error e := by
  refine ⟨rfl, rfl, ?_⟩
  intro e h
  rw [show index_from_mask ["K+", "Cl-"] "Na+" false = Except.ok [] from rfl] at h
  cases h

/-- C10 (amended): for every structure and mask that matches zero atoms,
`index_from_mask` returns the empty list (the spec's permitted
return-empty-and-let-the-caller-decide behaviour) instead of raising. -/
theorem index_from_mask_empty_returns_ok (atoms : List String) (mask : String)
    (amber : Bool) (h : selectedIndices atoms mask = []) :
    index_from_mask atoms mask amber = Except.ok [] := by
  simp [index_from_mask, h]

/-- C10 witness: the empty-selection behaviour on a concrete two-atom
structure with a mask matching neither atom. -/
theorem index_from_mask_empty_returns_ok_witness :
    selectedIndices ["K+", "Cl-"] "Na+" = [] ∧
    index_from_mask ["K+", "Cl-"] "Na+" true = Except.ok [] :=
  ⟨rfl, index_from_mask_empty_returns_ok ["K+", "Cl-"] "Na+" true rfl⟩
